import Mathlib

/-!
Verification of the covered-call payoff calculator
(`calculate_covered_call_profit.py`).

The numeric values exchanged by the program are embedded as exact
rationals (`ℚ`): every formula in the source is closed-form arithmetic
on console-supplied numbers.  The two console input-validation loops
are embedded over a finite list of parse outcomes (`Option` values),
and the slider callback's textual conclusion is embedded as a small
inductive datatype carrying the displayed amount.
-/

namespace CoveredCall

/-- Source `calculate_covered_call_profit` (lines 20–26): total premium plus a
stock leg that is uncapped at or below the strike and capped above it. -/
def calculate_covered_call_profit (expiration_price purchase_price strike_price
    premium_per_share num_shares : ℚ) : ℚ :=
  let total_premium := premium_per_share * num_shares
  let stock_profit :=
    if expiration_price ≤ strike_price then
      (expiration_price - purchase_price) * num_shares
    else
      (strike_price - purchase_price) * num_shares
  stock_profit + total_premium

/-- Source `calculate_buy_and_hold_profit` (lines 28–29). -/
def calculate_buy_and_hold_profit (expiration_price purchase_price
    num_shares : ℚ) : ℚ :=
  (expiration_price - purchase_price) * num_shares

/-- Source `get_float_input` (lines 6–9), over the list of parse outcomes of
the successive console entries: `none` is an entry on which `float(...)`
raises `ValueError`, `some v` an entry parsing to `v`.  The result pairs the
returned value with the number of reprompt messages printed before it;
`none` means the stream was exhausted without any parseable entry. -/
def get_float_input : List (Option ℚ) → Option (ℚ × ℕ)
  | [] => none
  | some v :: _ => some (v, 0)
  | none :: rest => (get_float_input rest).map (fun r => (r.1, r.2 + 1))

/-- Source `get_int_input` (lines 11–17), over the list of `int(...)` parse
outcomes of the successive console entries.  An entry is accepted only when
it parses and is `> 0`; otherwise one message is printed and the loop
continues. -/
def get_int_input : List (Option ℤ) → Option (ℤ × ℕ)
  | [] => none
  | some v :: rest =>
      if 0 < v then some (v, 0)
      else (get_int_input rest).map (fun r => (r.1, r.2 + 1))
  | none :: rest => (get_int_input rest).map (fun r => (r.1, r.2 + 1))

/-- An entry rejected by `get_int_input`: unparseable or `≤ 0`. -/
def int_entry_invalid : Option ℤ → Bool
  | none => true
  | some v => decide (v ≤ 0)

/-- Model of `np.linspace(a, b, n)` (endpoint included): `n` evenly spaced
samples from `a` to `b`, step `(b - a)/(n - 1)`. -/
def linspace (a b : ℚ) (n : ℕ) : List ℚ :=
  (List.range n).map (fun i : ℕ => a + (b - a) * (i : ℚ) / ((n : ℚ) - 1))

/-- Source line 57: `plot_min_price = min(purchase_price, strike_price) * 0.8`. -/
def plot_min_price (purchase_price strike_price : ℚ) : ℚ :=
  min purchase_price strike_price * 0.8

/-- Source line 58: `plot_max_price = (strike_price + premium_per_share) * 1.2`. -/
def plot_max_price (strike_price premium_per_share : ℚ) : ℚ :=
  (strike_price + premium_per_share) * 1.2

/-- Source line 59: `expiration_prices = np.linspace(plot_min_price, plot_max_price, 400)`. -/
def expiration_prices (purchase_price strike_price premium_per_share : ℚ) : List ℚ :=
  linspace (plot_min_price purchase_price strike_price)
    (plot_max_price strike_price premium_per_share) 400

/-- Source line 61: covered-call profit evaluated at every sampled price. -/
def cc_profits (purchase_price strike_price premium_per_share num_shares : ℚ) : List ℚ :=
  (expiration_prices purchase_price strike_price premium_per_share).map
    (fun p => calculate_covered_call_profit p purchase_price strike_price
      premium_per_share num_shares)

/-- Source line 62: buy-and-hold profit evaluated at every sampled price. -/
def bh_profits (purchase_price strike_price premium_per_share num_shares : ℚ) : List ℚ :=
  (expiration_prices purchase_price strike_price premium_per_share).map
    (fun p => calculate_buy_and_hold_profit p purchase_price num_shares)

/-- The three shapes of the conclusion line built by `update`
(lines 106–112): almost equal, covered call ahead by the shown amount, or
covered call behind by the shown amount. -/
inductive Conclusion where
  | almostEqual : Conclusion
  | moreBy : ℚ → Conclusion
  | lessBy : ℚ → Conclusion
deriving DecidableEq, Repr

/-- Source `update` (lines 98–120), restricted to the data that determines
its summary text: it recomputes both profits at the slider value and
classifies their difference with the `0.01` dead zone. -/
def update (current_price purchase_price strike_price premium_per_share
    num_shares : ℚ) : ℚ × ℚ × Conclusion :=
  let cc_profit := calculate_covered_call_profit current_price purchase_price
    strike_price premium_per_share num_shares
  let bh_profit := calculate_buy_and_hold_profit current_price purchase_price
    num_shares
  let difference := cc_profit - bh_profit
  let conclusion :=
    if |difference| < 0.01 then Conclusion.almostEqual
    else if 0 < difference then Conclusion.moreBy difference
    else Conclusion.lessBy |difference|
  (cc_profit, bh_profit, conclusion)

/-- The difference function `diff(p)` of the spec: covered-call profit minus
buy-and-hold profit at expiration price `p`. -/
def diff (p purchase_price strike_price premium_per_share num_shares : ℚ) : ℚ :=
  calculate_covered_call_profit p purchase_price strike_price premium_per_share
      num_shares -
    calculate_buy_and_hold_profit p purchase_price num_shares

end CoveredCall

namespace CoveredCall

/-- C1: `calculate_covered_call_profit` is total on ℚ and returns
`(expiration_price − purchase_price)·num_shares + premium_per_share·num_shares`
when `expiration_price ≤ strike_price`, and
`(strike_price − purchase_price)·num_shares + premium_per_share·num_shares`
when `expiration_price > strike_price`. -/
theorem covered_call_profit_branches (expiration_price purchase_price
    strike_price premium_per_share num_shares : ℚ) :
    (expiration_price ≤ strike_price →
      calculate_covered_call_profit expiration_price purchase_price strike_price
          premium_per_share num_shares =
        (expiration_price - purchase_price) * num_shares +
          premium_per_share * num_shares) ∧
    (strike_price < expiration_price →
      calculate_covered_call_profit expiration_price purchase_price strike_price
          premium_per_share num_shares =
        (strike_price - purchase_price) * num_shares +
          premium_per_share * num_shares) := by
  constructor
  · intro h
    simp [calculate_covered_call_profit, if_pos h]
  · intro h
    simp [calculate_covered_call_profit, if_neg (not_le.mpr h)]

/-- Witness for C1 at the spec's worked example. -/
theorem covered_call_profit_branches_witness :
    ((105 : ℚ) ≤ 110 →
      calculate_covered_call_profit 105 100 110 2 100 =
        ((105 : ℚ) - 100) * 100 + 2 * 100) ∧
    ((110 : ℚ) < 130 →
      calculate_covered_call_profit 130 100 110 2 100 =
        ((110 : ℚ) - 100) * 100 + 2 * 100) :=
  ⟨fun _ => (covered_call_profit_branches 105 100 110 2 100).1 (by norm_num),
   fun _ => (covered_call_profit_branches 130 100 110 2 100).2 (by norm_num)⟩

/-- C2: `calculate_buy_and_hold_profit` is the pure total function
`(expiration_price − purchase_price) × num_shares`. -/
theorem buy_and_hold_profit_eq (expiration_price purchase_price
    num_shares : ℚ) :
    calculate_buy_and_hold_profit expiration_price purchase_price num_shares =
      (expiration_price - purchase_price) * num_shares := rfl

/-- C9: the spec's worked example with purchase 100, strike 110, premium 2,
100 shares: profits 700/500 at price 105, 1200/3000 at price 130, and both
strategies return 1200 at the crossover price 112. -/
theorem worked_example :
    calculate_covered_call_profit 105 100 110 2 100 = 700 ∧
    calculate_buy_and_hold_profit 105 100 100 = 500 ∧
    calculate_covered_call_profit 105 100 110 2 100 -
      calculate_buy_and_hold_profit 105 100 100 = 200 ∧
    calculate_covered_call_profit 130 100 110 2 100 = 1200 ∧
    calculate_buy_and_hold_profit 130 100 100 = 3000 ∧
    calculate_covered_call_profit 130 100 110 2 100 -
      calculate_buy_and_hold_profit 130 100 100 = -1800 ∧
    (110 : ℚ) + 2 = 112 ∧
    calculate_covered_call_profit 112 100 110 2 100 = 1200 ∧
    calculate_buy_and_hold_profit 112 100 100 = 1200 := by
  norm_num [calculate_covered_call_profit, calculate_buy_and_hold_profit]

/-- C3: under the data-model invariants (positive share count, nonnegative
premium), `diff(p) = covered_call_profit(p) − buy_and_hold_profit(p)` is
strictly decreasing for `p > strike_price` and vanishes at the crossover
price `strike_price + premium_per_share`; equivalently, buy-and-hold profit
at the crossover price equals covered-call profit there. -/
theorem diff_decreasing_and_crossover (purchase_price strike_price
    premium_per_share num_shares : ℚ) (hn : 0 < num_shares)
    (hprem : 0 ≤ premium_per_share) :
    (∀ p₁ p₂ : ℚ, strike_price < p₁ → p₁ < p₂ →
      diff p₂ purchase_price strike_price premium_per_share num_shares <
        diff p₁ purchase_price strike_price premium_per_share num_shares) ∧
    diff (strike_price + premium_per_share) purchase_price strike_price
        premium_per_share num_shares = 0 ∧
    calculate_buy_and_hold_profit (strike_price + premium_per_share)
        purchase_price num_shares =
      calculate_covered_call_profit (strike_price + premium_per_share)
        purchase_price strike_price premium_per_share num_shares := by
  have hzero : diff (strike_price + premium_per_share) purchase_price
      strike_price premium_per_share num_shares = 0 := by
    rcases eq_or_lt_of_le hprem with h0 | h0
    · simp [diff, calculate_covered_call_profit, calculate_buy_and_hold_profit,
        ← h0]
    · have hgt : ¬ strike_price + premium_per_share ≤ strike_price := by
        linarith
      simp only [diff, calculate_covered_call_profit,
        calculate_buy_and_hold_profit, if_neg hgt]
      ring
  refine ⟨?_, hzero, ?_⟩
  · intro p₁ p₂ h₁ h₂
    have hle₁ : ¬ p₁ ≤ strike_price := not_le.mpr h₁
    have hle₂ : ¬ p₂ ≤ strike_price := not_le.mpr (h₁.trans h₂)
    simp only [diff, calculate_covered_call_profit,
      calculate_buy_and_hold_profit, if_neg hle₁, if_neg hle₂]
    nlinarith
  · have := sub_eq_zero.mp hzero
    simp only [diff] at this
    linarith [sub_eq_zero.mp hzero]

/-- Witness for C3 at the spec's worked example. -/
theorem diff_decreasing_and_crossover_witness :
    (∀ p₁ p₂ : ℚ, (110 : ℚ) < p₁ → p₁ < p₂ →
      diff p₂ 100 110 2 100 < diff p₁ 100 110 2 100) ∧
    diff ((110 : ℚ) + 2) 100 110 2 100 = 0 ∧
    calculate_buy_and_hold_profit ((110 : ℚ) + 2) 100 100 =
      calculate_covered_call_profit ((110 : ℚ) + 2) 100 110 2 100 :=
  diff_decreasing_and_crossover 100 110 2 100 (by norm_num) (by norm_num)

/-- C4: with a positive share count, the covered-call profit is non-decreasing
in the expiration price below the strike, constant above it, and globally
bounded by its value at the strike, which is therefore its maximum over any
domain of expiration prices. -/
theorem covered_call_max_at_strike (purchase_price strike_price
    premium_per_share num_shares : ℚ) (hn : 0 < num_shares) :
    (∀ e₁ e₂ : ℚ, e₁ ≤ e₂ → e₂ ≤ strike_price →
      calculate_covered_call_profit e₁ purchase_price strike_price
          premium_per_share num_shares ≤
        calculate_covered_call_profit e₂ purchase_price strike_price
          premium_per_share num_shares) ∧
    (∀ e₁ e₂ : ℚ, strike_price < e₁ → strike_price < e₂ →
      calculate_covered_call_profit e₁ purchase_price strike_price
          premium_per_share num_shares =
        calculate_covered_call_profit e₂ purchase_price strike_price
          premium_per_share num_shares) ∧
    (∀ e : ℚ, calculate_covered_call_profit e purchase_price strike_price
          premium_per_share num_shares ≤
        calculate_covered_call_profit strike_price purchase_price strike_price
          premium_per_share num_shares) := by
  refine ⟨?_, ?_, ?_⟩
  · intro e₁ e₂ h12 h2s
    simp only [calculate_covered_call_profit, if_pos (h12.trans h2s),
      if_pos h2s]
    nlinarith
  · intro e₁ e₂ h₁ h₂
    simp only [calculate_covered_call_profit, if_neg (not_le.mpr h₁),
      if_neg (not_le.mpr h₂)]
  · intro e
    by_cases he : e ≤ strike_price
    · simp only [calculate_covered_call_profit, if_pos he, if_pos le_rfl]
      nlinarith
    · simp only [calculate_covered_call_profit, if_neg he, if_pos le_rfl]
      exact le_rfl

/-- Witness for C4 at the spec's worked example. -/
theorem covered_call_max_at_strike_witness :
    (∀ e₁ e₂ : ℚ, e₁ ≤ e₂ → e₂ ≤ 110 →
      calculate_covered_call_profit e₁ 100 110 2 100 ≤
        calculate_covered_call_profit e₂ 100 110 2 100) ∧
    (∀ e₁ e₂ : ℚ, (110 : ℚ) < e₁ → (110 : ℚ) < e₂ →
      calculate_covered_call_profit e₁ 100 110 2 100 =
        calculate_covered_call_profit e₂ 100 110 2 100) ∧
    (∀ e : ℚ, calculate_covered_call_profit e 100 110 2 100 ≤
      calculate_covered_call_profit 110 100 110 2 100) :=
  covered_call_max_at_strike 100 110 2 100 (by norm_num)

/-- C5: at `expiration_price = strike_price` the uncapped and capped branch
formulas coincide, and the covered-call profit is continuous there in the
ε–δ sense: no jump discontinuity at the branch boundary. -/
theorem covered_call_continuous_at_strike (purchase_price strike_price
    premium_per_share num_shares ε : ℚ) (hε : 0 < ε) :
    (strike_price - purchase_price) * num_shares +
        premium_per_share * num_shares =
      calculate_covered_call_profit strike_price purchase_price strike_price
        premium_per_share num_shares ∧
    ∃ δ : ℚ, 0 < δ ∧ ∀ e : ℚ, |e - strike_price| < δ →
      |calculate_covered_call_profit e purchase_price strike_price
          premium_per_share num_shares -
        calculate_covered_call_profit strike_price purchase_price strike_price
          premium_per_share num_shares| < ε := by
  have hval : calculate_covered_call_profit strike_price purchase_price
      strike_price premium_per_share num_shares =
      (strike_price - purchase_price) * num_shares +
        premium_per_share * num_shares := by
    simp [calculate_covered_call_profit]
  refine ⟨hval.symm, ε / (|num_shares| + 1), ?_, ?_⟩
  · positivity
  · intro e he
    by_cases hle : e ≤ strike_price
    · have hdiff : calculate_covered_call_profit e purchase_price strike_price
          premium_per_share num_shares -
          calculate_covered_call_profit strike_price purchase_price
            strike_price premium_per_share num_shares =
          (e - strike_price) * num_shares := by
        simp only [calculate_covered_call_profit, if_pos hle, if_pos le_rfl]
        ring
      rw [hdiff, abs_mul]
      calc |e - strike_price| * |num_shares|
          ≤ |e - strike_price| * (|num_shares| + 1) :=
            mul_le_mul_of_nonneg_left (by linarith [abs_nonneg num_shares])
              (abs_nonneg _)
        _ < ε / (|num_shares| + 1) * (|num_shares| + 1) :=
            mul_lt_mul_of_pos_right he
              (by linarith [abs_nonneg num_shares])
        _ = ε := div_mul_cancel₀ ε (by linarith [abs_nonneg num_shares])
    · have hdiff : calculate_covered_call_profit e purchase_price strike_price
          premium_per_share num_shares -
          calculate_covered_call_profit strike_price purchase_price
            strike_price premium_per_share num_shares = 0 := by
        simp only [calculate_covered_call_profit, if_neg hle, if_pos le_rfl]
        ring
      rw [hdiff]
      simpa using hε

/-- Witness for C5 at the spec's worked example with ε = 1. -/
theorem covered_call_continuous_at_strike_witness :
    ((110 : ℚ) - 100) * 100 + 2 * 100 =
      calculate_covered_call_profit 110 100 110 2 100 ∧
    ∃ δ : ℚ, 0 < δ ∧ ∀ e : ℚ, |e - 110| < δ →
      |calculate_covered_call_profit e 100 110 2 100 -
        calculate_covered_call_profit 110 100 110 2 100| < 1 :=
  covered_call_continuous_at_strike 100 110 2 100 1 (by norm_num)

/-- C10: with nonnegative premium and share count, the covered call beats
buy-and-hold by exactly the constant `premium_per_share × num_shares` at
every expiration price at or below the strike, and never returns less than
buy-and-hold at any expiration price up to the crossover price
`strike_price + premium_per_share`. -/
theorem covered_call_dominates_below_crossover (purchase_price strike_price
    premium_per_share num_shares : ℚ) (hprem : 0 ≤ premium_per_share)
    (hn : 0 ≤ num_shares) :
    (∀ p : ℚ, p ≤ strike_price →
      calculate_covered_call_profit p purchase_price strike_price
          premium_per_share num_shares -
        calculate_buy_and_hold_profit p purchase_price num_shares =
        premium_per_share * num_shares) ∧
    (∀ p : ℚ, p ≤ strike_price + premium_per_share →
      calculate_buy_and_hold_profit p purchase_price num_shares ≤
        calculate_covered_call_profit p purchase_price strike_price
          premium_per_share num_shares) := by
  constructor
  · intro p hp
    simp only [calculate_covered_call_profit, calculate_buy_and_hold_profit,
      if_pos hp]
    ring
  · intro p hp
    by_cases hle : p ≤ strike_price
    · simp only [calculate_covered_call_profit, calculate_buy_and_hold_profit,
        if_pos hle]
      nlinarith
    · simp only [calculate_covered_call_profit, calculate_buy_and_hold_profit,
        if_neg hle]
      nlinarith

/-- Witness for C10 at the spec's worked example. -/
theorem covered_call_dominates_below_crossover_witness :
    (∀ p : ℚ, p ≤ 110 →
      calculate_covered_call_profit p 100 110 2 100 -
        calculate_buy_and_hold_profit p 100 100 = 2 * 100) ∧
    (∀ p : ℚ, p ≤ (110 : ℚ) + 2 →
      calculate_buy_and_hold_profit p 100 100 ≤
        calculate_covered_call_profit p 100 110 2 100) :=
  covered_call_dominates_below_crossover 100 110 2 100 (by norm_num)
    (by norm_num)

/-- C6: `update` recomputes the two profits at the current price and
classifies their difference `d` with the `0.01` dead zone: almost equal when
`|d| < 0.01`, covered call earning `$d` more when `d ≥ 0.01`, and covered
call earning `$|d|` less when `d ≤ −0.01`. -/
theorem update_classification (current_price purchase_price strike_price
    premium_per_share num_shares : ℚ) :
    (update current_price purchase_price strike_price premium_per_share
        num_shares).1 =
      calculate_covered_call_profit current_price purchase_price strike_price
        premium_per_share num_shares ∧
    (update current_price purchase_price strike_price premium_per_share
        num_shares).2.1 =
      calculate_buy_and_hold_profit current_price purchase_price num_shares ∧
    (|diff current_price purchase_price strike_price premium_per_share
        num_shares| < 0.01 →
      (update current_price purchase_price strike_price premium_per_share
          num_shares).2.2 = Conclusion.almostEqual) ∧
    (0.01 ≤ diff current_price purchase_price strike_price premium_per_share
        num_shares →
      (update current_price purchase_price strike_price premium_per_share
          num_shares).2.2 =
        Conclusion.moreBy (diff current_price purchase_price strike_price
          premium_per_share num_shares)) ∧
    (diff current_price purchase_price strike_price premium_per_share
        num_shares ≤ -0.01 →
      (update current_price purchase_price strike_price premium_per_share
          num_shares).2.2 =
        Conclusion.lessBy |diff current_price purchase_price strike_price
          premium_per_share num_shares|) := by
  refine ⟨rfl, rfl, ?_, ?_, ?_⟩
  · intro h
    simp only [diff] at h
    simp only [update]
    rw [if_pos h]
  · intro h
    simp only [diff] at h
    have h1 := not_lt.mpr (le_trans h (le_abs_self _))
    have h2 := lt_of_lt_of_le (by norm_num : (0 : ℚ) < 0.01) h
    simp only [diff, update]
    rw [if_neg h1, if_pos h2]
  · intro h
    simp only [diff] at h
    have h1 : ¬ |calculate_covered_call_profit current_price purchase_price
        strike_price premium_per_share num_shares -
          calculate_buy_and_hold_profit current_price purchase_price
            num_shares| < 0.01 := by
      rw [not_lt]
      calc (0.01 : ℚ) ≤ -(calculate_covered_call_profit current_price
            purchase_price strike_price premium_per_share num_shares -
              calculate_buy_and_hold_profit current_price purchase_price
                num_shares) := by linarith
        _ ≤ |calculate_covered_call_profit current_price purchase_price
              strike_price premium_per_share num_shares -
                calculate_buy_and_hold_profit current_price purchase_price
                  num_shares| := neg_le_abs _
    have h2 : ¬ 0 < calculate_covered_call_profit current_price purchase_price
        strike_price premium_per_share num_shares -
          calculate_buy_and_hold_profit current_price purchase_price
            num_shares := by linarith
    simp only [diff, update]
    rw [if_neg h1, if_neg h2]

/-- Witness for C6: at the spec's worked example, price 112 gives the
almost-equal conclusion, price 105 the more-by conclusion, and price 130 the
less-by conclusion. -/
theorem update_classification_witness :
    (update 112 100 110 2 100).2.2 = Conclusion.almostEqual ∧
    (update 105 100 110 2 100).2.2 =
      Conclusion.moreBy (diff 105 100 110 2 100) ∧
    (update 130 100 110 2 100).2.2 =
      Conclusion.lessBy |diff 130 100 110 2 100| :=
  ⟨(update_classification 112 100 110 2 100).2.2.1
      (by norm_num [diff, calculate_covered_call_profit,
        calculate_buy_and_hold_profit]),
   (update_classification 105 100 110 2 100).2.2.2.1
      (by norm_num [diff, calculate_covered_call_profit,
        calculate_buy_and_hold_profit]),
   (update_classification 130 100 110 2 100).2.2.2.2
      (by norm_num [diff, calculate_covered_call_profit,
        calculate_buy_and_hold_profit])⟩

/-- C7: `get_float_input` returns the first parseable entry with one
reprompt message per preceding unparseable entry, and returns nothing on a
stream with no parseable entry (the loop reprompts until the stream ends);
`get_int_input` returns the first entry that parses and is positive, with
one message per preceding unparseable or non-positive entry, and returns
nothing on a stream with no such entry. -/
theorem input_loops :
    (∀ (pre : List (Option ℚ)) (v : ℚ) (rest : List (Option ℚ)),
      pre.all Option.isNone →
      get_float_input (pre ++ some v :: rest) = some (v, pre.length)) ∧
    (∀ l : List (Option ℚ), l.all Option.isNone →
      get_float_input l = none) ∧
    (∀ (pre : List (Option ℤ)) (v : ℤ) (rest : List (Option ℤ)), 0 < v →
      pre.all int_entry_invalid →
      get_int_input (pre ++ some v :: rest) = some (v, pre.length)) ∧
    (∀ l : List (Option ℤ), l.all int_entry_invalid →
      get_int_input l = none) := by
  refine ⟨?_, ?_, ?_, ?_⟩
  · intro pre v rest
    induction pre with
    | nil => intro _; simp [get_float_input]
    | cons a pre ih =>
      intro h
      simp only [List.all_cons, Bool.and_eq_true] at h
      cases a with
      | none => simp [get_float_input, ih h.2]
      | some x => simp [Option.isNone] at h
  · intro l
    induction l with
    | nil => intro _; rfl
    | cons a l ih =>
      intro h
      simp only [List.all_cons, Bool.and_eq_true] at h
      cases a with
      | none => simp [get_float_input, ih h.2]
      | some x => simp [Option.isNone] at h
  · intro pre v rest hv
    induction pre with
    | nil => intro _; simp [get_int_input, if_pos hv]
    | cons a pre ih =>
      intro h
      simp only [List.all_cons, Bool.and_eq_true] at h
      cases a with
      | none => simp [get_int_input, ih h.2]
      | some w =>
        have hw : w ≤ 0 := by simpa [int_entry_invalid] using h.1
        have hw2 : ¬ 0 < w := not_lt.mpr hw
        simp [get_int_input, if_neg hw2, ih h.2]
  · intro l
    induction l with
    | nil => intro _; rfl
    | cons a l ih =>
      intro h
      simp only [List.all_cons, Bool.and_eq_true] at h
      cases a with
      | none => simp [get_int_input, ih h.2]
      | some w =>
        have hw : w ≤ 0 := by simpa [int_entry_invalid] using h.1
        have hw2 : ¬ 0 < w := not_lt.mpr hw
        simp [get_int_input, if_neg hw2, ih h.2]

/-- Witness for C7: two unparseable float entries before `3` give `3` with
two messages; an unparseable and a non-positive integer entry before `5`
give `5` with two messages; all-invalid streams return nothing. -/
theorem input_loops_witness :
    get_float_input ([none, none] ++ some (3 : ℚ) :: []) =
      some (3, ([none, none] : List (Option ℚ)).length) ∧
    get_float_input ([none, none, none] : List (Option ℚ)) = none ∧
    get_int_input ([none, some (-2)] ++ some (5 : ℤ) :: []) =
      some (5, ([none, some (-2)] : List (Option ℤ)).length) ∧
    get_int_input [some (0 : ℤ), none] = none :=
  ⟨input_loops.1 [none, none] 3 [] (by decide),
   input_loops.2.1 [none, none, none] (by decide),
   input_loops.2.2.1 [none, some (-2)] 5 [] (by decide) (by decide),
   input_loops.2.2.2 [some 0, none] (by decide)⟩

/-- The `i`-th sample of `linspace` follows the evenly spaced formula. -/
theorem linspace_getD (a b : ℚ) (n i : ℕ) (h : i < n) :
    (linspace a b n).getD i 0 = a + (b - a) * i / ((n : ℚ) - 1) := by
  simp only [linspace, List.getD_eq_getElem?_getD, List.getElem?_map,
    List.getElem?_range h]
  rfl

/-- C8: the driver's plotted domain is exactly 400 evenly spaced prices from
`min(purchase_price, strike_price)·0.8` to
`(strike_price + premium_per_share)·1.2`, and both profit sequences are
obtained by evaluating the respective profit function at every sampled
price. -/
theorem plot_domain_construction (purchase_price strike_price
    premium_per_share num_shares : ℚ) :
    (expiration_prices purchase_price strike_price premium_per_share).length =
      400 ∧
    (∀ i : ℕ, i < 400 →
      (expiration_prices purchase_price strike_price premium_per_share).getD
          i 0 =
        plot_min_price purchase_price strike_price +
          (plot_max_price strike_price premium_per_share -
            plot_min_price purchase_price strike_price) * i / 399) ∧
    (expiration_prices purchase_price strike_price premium_per_share).getD
        0 0 = plot_min_price purchase_price strike_price ∧
    (expiration_prices purchase_price strike_price premium_per_share).getD
        399 0 = plot_max_price strike_price premium_per_share ∧
    cc_profits purchase_price strike_price premium_per_share num_shares =
      (expiration_prices purchase_price strike_price premium_per_share).map
        (fun p => calculate_covered_call_profit p purchase_price strike_price
          premium_per_share num_shares) ∧
    bh_profits purchase_price strike_price premium_per_share num_shares =
      (expiration_prices purchase_price strike_price premium_per_share).map
        (fun p => calculate_buy_and_hold_profit p purchase_price
          num_shares) := by
  have hform : ∀ i : ℕ, i < 400 →
      (expiration_prices purchase_price strike_price premium_per_share).getD
          i 0 =
        plot_min_price purchase_price strike_price +
          (plot_max_price strike_price premium_per_share -
            plot_min_price purchase_price strike_price) * i / 399 := by
    intro i hi
    rw [expiration_prices, linspace_getD _ _ _ _ hi]
    norm_num
  refine ⟨?_, hform, ?_, ?_, rfl, rfl⟩
  · simp [expiration_prices, linspace]
  · rw [hform 0 (by norm_num)]
    norm_num
  · rw [hform 399 (by norm_num)]
    push_cast
    ring

/-- Witness for C8 at the spec's worked example: the domain has 400 samples
and sample 1 follows the evenly spaced formula. -/
theorem plot_domain_construction_witness :
    (expiration_prices 100 110 2).length = 400 ∧
    (expiration_prices 100 110 2).getD 1 0 =
      plot_min_price 100 110 +
        (plot_max_price 110 2 - plot_min_price 100 110) *
          ((1 : ℕ) : ℚ) / 399 :=
  ⟨(plot_domain_construction 100 110 2 100).1,
   (plot_domain_construction 100 110 2 100).2.1 1 (by norm_num)⟩

end CoveredCall
